import Mathlib

/-!
Verification of the baofit binned-data / covariance aggregation engine.

The development shallowly embeds the covariance/data classes of the repository:
the `LyaData` aggregator of src/baofit.cc (add / finalize / prune), the
cosmolib loader of baofit/boss.cc, the two-step binning of `twoStepSampling`,
the coordinate transform and `fixCovariance` of baofit/QuasarCorrelationData.cc.
Doubles are embedded as rationals where the algebra is exact and as real
numbers where transcendental functions (exp, log, sin, sqrt, arctan) appear.
The external `likely::CovarianceMatrix` collaborator (a packed symmetric store
holding a covariance or its inverse) is modelled by a square rational matrix
holding the inverse representation, with on-demand inversion.
-/

/-- Modelled from the spec: the on-demand matrix inversion performed by the
external `likely::CovarianceMatrix` store (spec section 4.3, a Cholesky-based
inverse in the source).  Over the rationals this is the exact inverse,
written with the adjugate so that it is computable. -/
def qInv {n : ℕ} (A : Matrix (Fin n) (Fin n) ℚ) : Matrix (Fin n) (Fin n) ℚ :=
  (A.det)⁻¹ • A.adjugate

theorem qInv_eq_inv {n : ℕ} (A : Matrix (Fin n) (Fin n) ℚ) : qInv A = A⁻¹ := by
  rw [qInv, Matrix.inv_def, Ring.inverse_eq_inv']

/-- A per-plate dataset after `load` has finalized it: data vector, the
inverse covariance read from the .icov file, and the cached product
`_icovData = icov * data` computed by `finalizeCovariance`. -/
structure LyaPlate (n : ℕ) where
  data : Fin n → ℚ
  icov : Matrix (Fin n) (Fin n) ℚ
  icovData : Fin n → ℚ

/-- The covariance matrix of a plate: its store holds the inverse
representation, so reading the covariance inverts on demand. -/
def LyaPlate.covarianceMatrix {n : ℕ} (p : LyaPlate n) : Matrix (Fin n) (Fin n) ℚ :=
  qInv p.icov

/-- State of the combined `LyaData` dataset of src/baofit.cc.  `started`
models `_data.size() != 0`; `covTilde` is an `Option` because the C++
`_covarianceTilde` is a shared pointer that is null before the first `add`
and after `finalize`/`reset`.  While accumulating, `cov` holds the contents
of `_covariance` (inverse representation, the sum of repeat^2-weighted plate
inverse covariances) and `covTilde` the repeat-weighted sum. -/
structure LyaData (n : ℕ) where
  started : Bool
  dataFinalized : Bool
  covarianceFinalized : Bool
  compressed : Bool
  data : Fin n → ℚ
  icovData : Fin n → ℚ
  cov : Matrix (Fin n) (Fin n) ℚ
  covTilde : Option (Matrix (Fin n) (Fin n) ℚ)

/-- The combined dataset as freshly constructed (Empty state): no data,
null covariance pointers. -/
def LyaData.empty (n : ℕ) : LyaData n :=
  { started := false
    dataFinalized := false
    covarianceFinalized := false
    compressed := false
    data := fun _ => 0
    icovData := fun _ => 0
    cov := 0
    covTilde := none }

/-- LyaData::add of src/baofit.cc (lines 398-449).  Asserts that this dataset
is neither finalized nor compressed; on the first call allocates zeroed
accumulators; then accumulates `_icovData[k] += repeat*other._icovData[k]`,
`_covariance->addInverse(other, repeat^2)` and
`_covarianceTilde->addInverse(other, repeat)`, where addInverse is the
element-wise weighted sum of inverse representations (spec section 4.3,
modelled from the spec since likely::CovarianceMatrix is external). -/
def LyaData.add {n : ℕ} (s : LyaData n) (other : LyaPlate n) (rep : ℤ) :
    Except String (LyaData n) :=
  if s.dataFinalized || s.covarianceFinalized || s.compressed then
    .error "assertion failed: add called on a finalized or compressed dataset"
  else
    let d0 : Fin n → ℚ := if s.started then s.icovData else fun _ => 0
    let c0 : Matrix (Fin n) (Fin n) ℚ := if s.started then s.cov else 0
    match (if s.started then s.covTilde else some 0) with
    | none => .error "null _covarianceTilde dereferenced"
    | some t0 =>
      .ok { s with
        started := true
        icovData := fun k => d0 k + (rep : ℚ) * other.icovData k
        cov := c0 + ((rep : ℚ) * (rep : ℚ)) • other.icov
        covTilde := some (t0 + (rep : ℚ) • other.icov) }

/-- LyaData::finalize of src/baofit.cc (lines 511-579).  Asserts not yet
finalized; computes the point estimate `data = icovTilde^(-1) * icovData`
(the C++ multiplyByCovariance on the store holding the inverse
representation); with fixCovariance the accumulated `_covariance` is replaced
by the triple product `icovTilde * (sum repeat^2 icov)^(-1) * icovTilde`,
without it by `_covarianceTilde`; `_covarianceTilde` is then reset to null
and both finalized flags are set.  Dereferencing the null `_covarianceTilde`
of an Empty dataset is modelled as an error. -/
def LyaData.finalize {n : ℕ} (s : LyaData n) (fixCov : Bool) :
    Except String (LyaData n) :=
  if s.dataFinalized || s.covarianceFinalized || s.compressed then
    .error "assertion failed: finalize called on a finalized or compressed dataset"
  else
    match s.covTilde with
    | none => .error "null _covarianceTilde dereferenced (dataset is empty)"
    | some t =>
      .ok { s with
        data := (qInv t).mulVec s.icovData
        cov := if fixCov then t * qInv s.cov * t else t
        covTilde := none
        dataFinalized := true
        covarianceFinalized := true }

/-- The covariance matrix of the combined dataset after finalize: the store
holds the inverse representation, so reading the covariance inverts it. -/
def LyaData.covarianceMatrix {n : ℕ} (s : LyaData n) : Matrix (Fin n) (Fin n) ℚ :=
  qInv s.cov

/-- C1: on a combined dataset in the Accumulating state, add(plate, repeat)
succeeds and updates the accumulators element-wise: every icovData entry
gains repeat times the plate's icovData entry, the icov accumulator gains
repeat^2 times the plate's inverse covariance, and the icovTilde accumulator
gains repeat times the plate's inverse covariance. -/
theorem LyaData.add_accumulates {n : ℕ} (s : LyaData n) (p : LyaPlate n) (rep : ℤ)
    (hs : s.started = true) (h1 : s.dataFinalized = false)
    (h2 : s.covarianceFinalized = false) (h3 : s.compressed = false)
    (t : Matrix (Fin n) (Fin n) ℚ) (ht : s.covTilde = some t) :
    ∃ s', s.add p rep = .ok s' ∧
      (∀ k, s'.icovData k = s.icovData k + (rep : ℚ) * p.icovData k) ∧
      s'.cov = s.cov + ((rep : ℚ) * (rep : ℚ)) • p.icov ∧
      s'.covTilde = some (t + (rep : ℚ) • p.icov) := by
  refine ⟨{ s with
      started := true
      icovData := fun k => s.icovData k + (rep : ℚ) * p.icovData k
      cov := s.cov + ((rep : ℚ) * (rep : ℚ)) • p.icov
      covTilde := some (t + (rep : ℚ) • p.icov) }, ?_, fun k => rfl, rfl, rfl⟩
  simp [LyaData.add, hs, h1, h2, h3, ht]

/-- Witness for C1: a concrete one-bin accumulating dataset and plate. -/
theorem LyaData.add_accumulates_witness :
    ∃ s', (LyaData.add (n := 1)
        { started := true, dataFinalized := false, covarianceFinalized := false,
          compressed := false, data := fun _ => 0, icovData := fun _ => 2,
          cov := 0, covTilde := some 0 }
        { data := fun _ => 5, icov := Matrix.of fun _ _ => 3, icovData := fun _ => 15 }
        2 = .ok s') ∧
      (∀ k, s'.icovData k = 2 + ((2 : ℤ) : ℚ) * 15) ∧
      s'.cov = 0 + (((2 : ℤ) : ℚ) * ((2 : ℤ) : ℚ)) • (Matrix.of fun _ _ => (3 : ℚ)) ∧
      s'.covTilde = some (0 + (((2 : ℤ) : ℚ)) • (Matrix.of fun _ _ => (3 : ℚ))) :=
  LyaData.add_accumulates _ _ 2 rfl rfl rfl rfl 0 rfl

/-- C2: adding a single finalized plate with repeat=1 to an empty combined
dataset and finalizing with fixCovariance=false reproduces that plate's data
vector and covariance matrix exactly (the combination is a no-op).  The
plate invariant icovData = icov * data is established by the source's
finalizeCovariance, and the plate's inverse covariance must be invertible
for its covariance to exist. -/
theorem LyaData.single_plate_noop {n : ℕ} (p : LyaPlate n)
    (hp : p.icovData = p.icov.mulVec p.data) (hdet : IsUnit p.icov.det) :
    ∃ s₁ s₂, (LyaData.empty n).add p 1 = .ok s₁ ∧ s₁.finalize false = .ok s₂ ∧
      s₂.data = p.data ∧ s₂.covarianceMatrix = p.covarianceMatrix := by
  refine ⟨{ LyaData.empty n with
      started := true
      icovData := fun k => 0 + ((1 : ℤ) : ℚ) * p.icovData k
      cov := 0 + (((1 : ℤ) : ℚ) * ((1 : ℤ) : ℚ)) • p.icov
      covTilde := some (0 + ((1 : ℤ) : ℚ) • p.icov) },
    { LyaData.empty n with
      started := true
      dataFinalized := true
      covarianceFinalized := true
      data := (qInv (0 + ((1 : ℤ) : ℚ) • p.icov)).mulVec
        (fun k => 0 + ((1 : ℤ) : ℚ) * p.icovData k)
      icovData := fun k => 0 + ((1 : ℤ) : ℚ) * p.icovData k
      cov := 0 + ((1 : ℤ) : ℚ) • p.icov
      covTilde := none }, rfl, rfl, ?_, ?_⟩
  · show (qInv (0 + ((1 : ℤ) : ℚ) • p.icov)).mulVec
        (fun k => 0 + ((1 : ℤ) : ℚ) * p.icovData k) = p.data
    simp only [Int.cast_one, one_smul, zero_add, one_mul]
    rw [hp, qInv_eq_inv, Matrix.mulVec_mulVec, Matrix.nonsing_inv_mul _ hdet,
      Matrix.one_mulVec]
  · show qInv (0 + ((1 : ℤ) : ℚ) • p.icov) = p.covarianceMatrix
    simp only [Int.cast_one, one_smul, zero_add]
    rfl

/-- Witness for C2: a concrete one-bin plate with inverse covariance 2 and
data 3. -/
theorem LyaData.single_plate_noop_witness :
    ((fun _ => (6 : ℚ)) = (Matrix.of fun (_ _ : Fin 1) => (2 : ℚ)).mulVec (fun _ => 3)) ∧
      IsUnit (Matrix.of fun (_ _ : Fin 1) => (2 : ℚ)).det ∧
      ∃ s₁ s₂, (LyaData.empty 1).add
          { data := fun _ => 3, icov := Matrix.of fun _ _ => 2,
            icovData := fun _ => 6 } 1 = .ok s₁ ∧
        s₁.finalize false = .ok s₂ ∧
        s₂.data = (fun _ => (3 : ℚ)) ∧
        s₂.covarianceMatrix = LyaPlate.covarianceMatrix
          { data := fun _ => 3, icov := Matrix.of fun _ _ => 2, icovData := fun _ => 6 } :=
  have h1 : (fun _ => (6 : ℚ)) = (Matrix.of fun (_ _ : Fin 1) => (2 : ℚ)).mulVec (fun _ => 3) := by
    funext k
    simp [Matrix.mulVec, Matrix.dotProduct]
    norm_num
  have h2 : IsUnit (Matrix.of fun (_ _ : Fin 1) => (2 : ℚ)).det := by
    rw [Matrix.det_fin_one]
    exact isUnit_iff_ne_zero.mpr (by norm_num)
  ⟨h1, h2, LyaData.single_plate_noop
    { data := fun _ => 3, icov := Matrix.of fun _ _ => 2, icovData := fun _ => 6 } h1 h2⟩

/-- C6: the aggregator's lifecycle state machine.  add fails on a Finalized
combined dataset; finalize fails on a Finalized dataset, and on an Empty
dataset (where the null _covarianceTilde pointer is dereferenced). -/
theorem LyaData.lifecycle_guards {n : ℕ} (s : LyaData n) (p : LyaPlate n)
    (rep : ℤ) (fixCov : Bool) :
    (s.dataFinalized = true →
      (∃ e, s.add p rep = .error e) ∧ (∃ e, s.finalize fixCov = .error e)) ∧
    (s.covTilde = none → ∃ e, s.finalize fixCov = .error e) := by
  constructor
  · intro h
    constructor
    · exact ⟨"assertion failed: add called on a finalized or compressed dataset",
        by simp [LyaData.add, h]⟩
    · exact ⟨"assertion failed: finalize called on a finalized or compressed dataset",
        by simp [LyaData.finalize, h]⟩
  · intro h
    by_cases hg : (s.dataFinalized || s.covarianceFinalized || s.compressed) = true
    · exact ⟨"assertion failed: finalize called on a finalized or compressed dataset",
        by simp [LyaData.finalize, hg]⟩
    · refine ⟨"null _covarianceTilde dereferenced (dataset is empty)", ?_⟩
      simp only [LyaData.finalize]
      rw [if_neg (by simpa using hg), h]

/-- Witness for C6: a one-bin dataset that is simultaneously marked
finalized and has a null _covarianceTilde, so that every guard fires. -/
theorem LyaData.lifecycle_guards_witness :
    ((∃ e, (LyaData.mk (n := 1) true true true false (fun _ => 0) (fun _ => 0) 0 none).add
        { data := fun _ => 0, icov := 0, icovData := fun _ => 0 } 1 = .error e) ∧
      (∃ e, (LyaData.mk (n := 1) true true true false (fun _ => 0) (fun _ => 0) 0 none).finalize
        false = .error e)) ∧
    (∃ e, (LyaData.mk (n := 1) true true true false (fun _ => 0) (fun _ => 0) 0 none).finalize
        false = .error e) :=
  ⟨(LyaData.lifecycle_guards _ _ 1 false).1 rfl,
    (LyaData.lifecycle_guards
      (LyaData.mk (n := 1) true true true false (fun _ => 0) (fun _ => 0) 0 none)
      { data := fun _ => 0, icov := 0, icovData := fun _ => 0 } 1 false).2 rfl⟩

/-- A populated bin as LyaData::prune sees it: its global index, the cached
radius _r3d at this offset, and the bin center along the wavelength-ratio
axis (binCenters[0]). -/
structure PrunedBin where
  index : ℕ
  radius : ℚ
  llCenter : ℚ
deriving DecidableEq

/-- LyaData::prune of src/baofit.cc (lines 450-463): a populated bin is kept
exactly when getRadius(offset) >= rmin && getRadius(offset) < rmax &&
binCenters[0] >= llmin. -/
def LyaData.pruneKeep (bins : List PrunedBin) (rmin rmax llmin : ℚ) : List PrunedBin :=
  bins.filter fun b =>
    decide (rmin ≤ b.radius) && decide (b.radius < rmax) && decide (llmin ≤ b.llCenter)

/-- C3: pruning keeps a populated bin iff rmin <= radius < rmax and the
wavelength-ratio axis center is >= llMin; in particular a bin with radius
exactly rmax is excluded, one with radius exactly rmin is included, and one
whose wavelength-ratio center is exactly llMin is included. -/
theorem LyaData.pruneKeep_mem_iff (bins : List PrunedBin) (rmin rmax llmin : ℚ)
    (b : PrunedBin) (hb : b ∈ bins) :
    (b ∈ LyaData.pruneKeep bins rmin rmax llmin ↔
      (rmin ≤ b.radius ∧ b.radius < rmax ∧ llmin ≤ b.llCenter)) ∧
    (b.radius = rmax → b ∉ LyaData.pruneKeep bins rmin rmax llmin) ∧
    (b.radius = rmin → b.radius < rmax → llmin ≤ b.llCenter →
      b ∈ LyaData.pruneKeep bins rmin rmax llmin) ∧
    (b.llCenter = llmin → rmin ≤ b.radius → b.radius < rmax →
      b ∈ LyaData.pruneKeep bins rmin rmax llmin) := by
  have hmem : b ∈ LyaData.pruneKeep bins rmin rmax llmin ↔
      (rmin ≤ b.radius ∧ b.radius < rmax ∧ llmin ≤ b.llCenter) := by
    simp [LyaData.pruneKeep, List.mem_filter, hb, and_assoc]
  refine ⟨hmem, ?_, ?_, ?_⟩
  · intro hr hk
    exact absurd (hmem.mp hk).2.1 (by rw [hr]; exact lt_irrefl rmax)
  · intro hr hlt hll
    exact hmem.mpr ⟨le_of_eq hr.symm, hlt, hll⟩
  · intro hll hge hlt
    exact hmem.mpr ⟨hge, hlt, le_of_eq hll.symm⟩

/-- Witness for C3: three concrete bins sitting exactly on the rmin, rmax
and llMin boundaries of the cut (rmin=10, rmax=20, llMin=1). -/
theorem LyaData.pruneKeep_mem_iff_witness :
    (⟨0, 10, 5⟩ ∈ ([⟨0, 10, 5⟩, ⟨1, 20, 5⟩, ⟨2, 15, 1⟩] : List PrunedBin)) ∧
      ((⟨0, 10, 5⟩ : PrunedBin) ∈
          LyaData.pruneKeep [⟨0, 10, 5⟩, ⟨1, 20, 5⟩, ⟨2, 15, 1⟩] 10 20 1 ↔
        ((10 : ℚ) ≤ 10 ∧ (10 : ℚ) < 20 ∧ (1 : ℚ) ≤ 5)) ∧
      ((10 : ℚ) = 20 → (⟨0, 10, 5⟩ : PrunedBin) ∉
        LyaData.pruneKeep [⟨0, 10, 5⟩, ⟨1, 20, 5⟩, ⟨2, 15, 1⟩] 10 20 1) ∧
      ((10 : ℚ) = 10 → (10 : ℚ) < 20 → (1 : ℚ) ≤ 5 → (⟨0, 10, 5⟩ : PrunedBin) ∈
        LyaData.pruneKeep [⟨0, 10, 5⟩, ⟨1, 20, 5⟩, ⟨2, 15, 1⟩] 10 20 1) ∧
      ((5 : ℚ) = 1 → (10 : ℚ) ≤ 10 → (10 : ℚ) < 20 → (⟨0, 10, 5⟩ : PrunedBin) ∈
        LyaData.pruneKeep [⟨0, 10, 5⟩, ⟨1, 20, 5⟩, ⟨2, 15, 1⟩] 10 20 1) :=
  ⟨by decide, LyaData.pruneKeep_mem_iff _ 10 20 1 _ (by decide)⟩

/-- twoStepSampling of baofit/boss.cc (lines 250-269), identical to the copy
in src/baofit.cc (lines 57-74): throws on non-positive parameters; otherwise
the first sample is 0, the next floor(breakpoint/dlin) samples come from the
uniform loop, and the remaining samples from the geometric loop (k runs from
1 while k < nBins - nUniform). -/
noncomputable def twoStepSampling (nBins : ℤ) (breakpoint dlog dlin : ℝ) :
    Except String (List ℝ) :=
  if 0 < breakpoint ∧ 0 < dlog ∧ 0 < dlin then
    .ok ([(0 : ℝ)]
      ++ (List.range (⌊breakpoint / dlin⌋.toNat)).map
          (fun (j : ℕ) => ((j : ℝ) + 1 - 0.5) * dlin)
      ++ (List.range (nBins - ⌊breakpoint / dlin⌋ - 1).toNat).map
          (fun (j : ℕ) => breakpoint *
            Real.exp (Real.log ((breakpoint + dlog) / breakpoint) * ((j : ℝ) + 1 - 0.5))))
  else .error "twoStepSampling: invalid parameters."

/-- C4: for nBins >= 1 and positive breakpoint, dlog, dlin, the two-step
sample sequence is: sample 0 first; then floor(breakpoint/dlin) uniform
samples (k-0.5)*dlin for k = 1..floor(breakpoint/dlin); then geometric
samples breakpoint*exp(ln((breakpoint+dlog)/breakpoint)*(k-0.5)) for
k = 1..nBins-floor(breakpoint/dlin)-1. -/
theorem twoStepSampling_closed_form (nBins : ℤ) (breakpoint dlog dlin : ℝ)
    (hn : 1 ≤ nBins) (hb : 0 < breakpoint) (hg : 0 < dlog) (hd : 0 < dlin) :
    ∃ l, twoStepSampling nBins breakpoint dlog dlin = .ok l ∧
      l.length = 1 + ⌊breakpoint / dlin⌋.toNat + (nBins - ⌊breakpoint / dlin⌋ - 1).toNat ∧
      l.getD 0 0 = 0 ∧
      (∀ k : ℕ, 1 ≤ k → k ≤ ⌊breakpoint / dlin⌋.toNat →
        l.getD k 0 = ((k : ℝ) - 0.5) * dlin) ∧
      (∀ k : ℕ, 1 ≤ k → k ≤ (nBins - ⌊breakpoint / dlin⌋ - 1).toNat →
        l.getD (⌊breakpoint / dlin⌋.toNat + k) 0 =
          breakpoint *
            Real.exp (Real.log ((breakpoint + dlog) / breakpoint) * ((k : ℝ) - 0.5))) := by
  refine ⟨[(0 : ℝ)]
      ++ (List.range (⌊breakpoint / dlin⌋.toNat)).map
          (fun (j : ℕ) => ((j : ℝ) + 1 - 0.5) * dlin)
      ++ (List.range (nBins - ⌊breakpoint / dlin⌋ - 1).toNat).map
          (fun (j : ℕ) => breakpoint *
            Real.exp (Real.log ((breakpoint + dlog) / breakpoint) * ((j : ℝ) + 1 - 0.5))),
    ?_, ?_, rfl, ?_, ?_⟩
  · simp only [twoStepSampling]
    rw [if_pos ⟨hb, hg, hd⟩]
  · simp only [List.length_append, List.length_map, List.length_range,
      List.length_cons, List.length_nil]
  · intro k hk1 hk2
    obtain ⟨j, rfl⟩ : ∃ j, k = j + 1 := ⟨k - 1, (Nat.succ_pred_eq_of_pos hk1).symm⟩
    have hj : j < ((List.range (⌊breakpoint / dlin⌋.toNat)).map
        (fun (j : ℕ) => ((j : ℝ) + 1 - 0.5) * dlin)).length := by
      rw [List.length_map, List.length_range]; omega
    show ((0 : ℝ) :: ((List.range (⌊breakpoint / dlin⌋.toNat)).map
        (fun (j : ℕ) => ((j : ℝ) + 1 - 0.5) * dlin)
      ++ (List.range (nBins - ⌊breakpoint / dlin⌋ - 1).toNat).map
          (fun (j : ℕ) => breakpoint *
            Real.exp (Real.log ((breakpoint + dlog) / breakpoint)
              * ((j : ℝ) + 1 - 0.5))))).getD (j + 1) 0 = _
    rw [List.getD_cons_succ, List.getD_append _ _ _ _ hj, List.getD_eq_getElem _ _ hj]
    simp only [List.getElem_map, List.getElem_range]
    have hcast : ((j + 1 : ℕ) : ℝ) = (j : ℝ) + 1 := by
      rw [Nat.cast_add, Nat.cast_one]
    rw [hcast]
  · intro k hk1 hk2
    obtain ⟨j, rfl⟩ : ∃ j, k = j + 1 := ⟨k - 1, (Nat.succ_pred_eq_of_pos hk1).symm⟩
    have hlen : ((List.range (⌊breakpoint / dlin⌋.toNat)).map
        (fun (j : ℕ) => ((j : ℝ) + 1 - 0.5) * dlin)).length = ⌊breakpoint / dlin⌋.toNat := by
      rw [List.length_map, List.length_range]
    have hj : j < ((List.range (nBins - ⌊breakpoint / dlin⌋ - 1).toNat).map
        (fun (j : ℕ) => breakpoint *
          Real.exp (Real.log ((breakpoint + dlog) / breakpoint)
            * ((j : ℝ) + 1 - 0.5)))).length := by
      rw [List.length_map, List.length_range]; omega
    show ((0 : ℝ) :: ((List.range (⌊breakpoint / dlin⌋.toNat)).map
        (fun (j : ℕ) => ((j : ℝ) + 1 - 0.5) * dlin)
      ++ (List.range (nBins - ⌊breakpoint / dlin⌋ - 1).toNat).map
          (fun (j : ℕ) => breakpoint *
            Real.exp (Real.log ((breakpoint + dlog) / breakpoint)
              * ((j : ℝ) + 1 - 0.5))))).getD (⌊breakpoint / dlin⌋.toNat + (j + 1)) 0 = _
    have harith : ⌊breakpoint / dlin⌋.toNat + (j + 1) =
        (⌊breakpoint / dlin⌋.toNat + j) + 1 := by omega
    rw [harith, List.getD_cons_succ,
      List.getD_append_right _ _ _ _ (by omega : ((List.range (⌊breakpoint / dlin⌋.toNat)).map
        (fun (j : ℕ) => ((j : ℝ) + 1 - 0.5) * dlin)).length ≤ ⌊breakpoint / dlin⌋.toNat + j),
      hlen]
    have hsub : ⌊breakpoint / dlin⌋.toNat + j - ⌊breakpoint / dlin⌋.toNat = j := by omega
    rw [hsub, List.getD_eq_getElem _ _ hj]
    simp only [List.getElem_map, List.getElem_range]
    have hcast : ((j + 1 : ℕ) : ℝ) = (j : ℝ) + 1 := by
      rw [Nat.cast_add, Nat.cast_one]
    rw [hcast]

/-- Witness for C4: the two-step sampling at nBins=3, breakpoint=1, dlog=1,
dlin=1. -/
theorem twoStepSampling_closed_form_witness :
    (1 : ℤ) ≤ 3 ∧ (0 : ℝ) < 1 ∧
      ∃ l, twoStepSampling 3 1 1 1 = .ok l ∧
        l.length = 1 + ⌊(1 : ℝ) / 1⌋.toNat + ((3 : ℤ) - ⌊(1 : ℝ) / 1⌋ - 1).toNat ∧
        l.getD 0 0 = 0 ∧
        (∀ k : ℕ, 1 ≤ k → k ≤ ⌊(1 : ℝ) / 1⌋.toNat →
          l.getD k 0 = ((k : ℝ) - 0.5) * 1) ∧
        (∀ k : ℕ, 1 ≤ k → k ≤ ((3 : ℤ) - ⌊(1 : ℝ) / 1⌋ - 1).toNat →
          l.getD (⌊(1 : ℝ) / 1⌋.toNat + k) 0 =
            1 * Real.exp (Real.log (((1 : ℝ) + 1) / 1) * ((k : ℝ) - 0.5))) :=
  ⟨by decide, by norm_num,
    twoStepSampling_closed_form 3 1 1 1 (by decide) (by norm_num) (by norm_num) (by norm_num)⟩

/-- The arc-minute to radian conversion constant of the source,
computed there as 4*atan(1)/(60*180). -/
noncomputable def arcminToRad : ℝ := 4 * Real.arctan 1 / (60 * 180)

/-- QuasarCorrelationData::transform of baofit/QuasarCorrelationData.cc
(lines 131-144), identical to LyaData::transform of src/baofit.cc (lines
274-291): maps bin-center wavelength-ratio ll, angular separation sep with
bin width dsep, and redshift z to the pair (r, mu).  The cosmology is the
external collaborator supplying the line-of-sight comoving distance and the
transverse comoving scale. -/
noncomputable def QuasarCorrelationData.transform
    (dist scale : ℝ → ℝ) (ll sep dsep z : ℝ) : ℝ × ℝ :=
  let expHalf := Real.exp (0.5 * ll)
  let zp1 := z + 1
  let z1 := zp1 / expHalf - 1
  let z2 := zp1 * expHalf - 1
  let drLos := dist z2 - dist z1
  let swgt := sep + (dsep * dsep / 12) / sep
  let drPerp := scale z * (swgt * arcminToRad)
  let rsq := drLos * drLos + drPerp * drPerp
  (Real.sqrt rsq, |drLos| / Real.sqrt rsq)

/-- Modelled from the spec: the coordinate transform exactly as the claim
words it, with z1 = (z+1)/e^(ll/2) - 1, z2 = (z+1)*e^(ll/2) - 1,
los = dist(z2) - dist(z1), swgt = sep + dsep^2/(12*sep), the transverse
separation scale(z) * swgt converted from arc-minutes to radians,
r = sqrt(los^2 + transverse^2) and mu = |los| / r. -/
noncomputable def transformSpec (dist scale : ℝ → ℝ) (ll sep dsep z : ℝ) : ℝ × ℝ :=
  let z1 := (z + 1) / Real.exp (ll / 2) - 1
  let z2 := (z + 1) * Real.exp (ll / 2) - 1
  let los := dist z2 - dist z1
  let swgt := sep + dsep ^ 2 / (12 * sep)
  let transverse := scale z * (swgt * (Real.pi / (60 * 180)))
  let r := Real.sqrt (los ^ 2 + transverse ^ 2)
  (r, |los| / r)

/-- C5: the source's coordinate transform agrees with the claim's formulas
for every input and every cosmology collaborator: the redshifts of the pair
are (z+1)/e^(ll/2) - 1 and (z+1)*e^(ll/2) - 1, the line-of-sight separation
is the difference of comoving distances, the transverse separation uses the
area-weighted mean radius sep + dsep^2/(12*sep) scaled by the transverse
comoving scale and converted from arc-minutes to radians, and the result is
r = sqrt(los^2 + transverse^2), mu = |los| / r. -/
theorem transform_matches_spec (dist scale : ℝ → ℝ) (ll sep dsep z : ℝ) :
    QuasarCorrelationData.transform dist scale ll sep dsep z =
      transformSpec dist scale ll sep dsep z := by
  have hexp : (0.5 : ℝ) * ll = ll / 2 := by ring
  have harc : arcminToRad = Real.pi / (60 * 180) := by
    rw [arcminToRad, Real.arctan_one]
    ring
  have hswgt : sep + (dsep * dsep / 12) / sep = sep + dsep ^ 2 / (12 * sep) := by
    rw [div_div, sq]
  simp only [QuasarCorrelationData.transform, transformSpec, hexp, harc, hswgt, ← pow_two,
    div_div]

/-- Outcome of parsing one line of a .params file with the source's grammar
(boost::spirit, an external collaborator): the parsed data value, the
discarded quadratic-estimator value, and the global bin index that getIndex
derives from the three bin-center coordinates; or a malformed line. -/
inductive ParamLine
  | ok (value cinvData : ℚ) (index : ℕ)
  | bad

/-- Outcome of parsing one line of a .cov/.icov file: offset1, offset2 and
the value, or a malformed line. -/
inductive CovLine
  | ok (offset1 offset2 : ℕ) (value : ℚ)
  | bad

/-- Modelled from the spec: the symmetric element write of the external
likely covariance store (spec sections 4.3 and 8): writing element (i,j)
also writes (j,i). -/
def symSet (f : ℕ → ℕ → ℚ) (i j : ℕ) (v : ℚ) : ℕ → ℕ → ℚ :=
  fun a b => if (a = i ∧ b = j) ∨ (a = j ∧ b = i) then v else f a b

/-- The dataset a cosmolib load produces: populated global indices in
discovery order, the data vector, and the covariance (or inverse
covariance) entries. -/
structure CosmolibData where
  populated : List ℕ
  dataVec : ℕ → ℚ
  covEntry : ℕ → ℕ → ℚ

/-- The .params reading loop of loadCosmolib (baofit/boss.cc lines 313-336):
the row counter starts at 0 and is incremented before parsing, and a
malformed line aborts with a message naming the line number and the params
file. -/
def readParamsAux (weighted : Bool) (paramsName : String) :
    List ParamLine → ℕ → CosmolibData → Except String CosmolibData
  | [], _, st => .ok st
  | ParamLine.bad :: _, n, _ =>
      .error ("loadCosmolib: error reading line " ++ toString (n + 1) ++ " of " ++ paramsName)
  | ParamLine.ok v cinv idx :: rest, n, st =>
      readParamsAux weighted paramsName rest (n + 1)
        { st with
          populated := st.populated ++ [idx]
          dataVec := fun i => if i = idx then (if weighted then cinv else v) else st.dataVec i }

/-- One entry of the covariance reading loop (boss.cc lines 362-370): .icov
values are sign-flipped on read, the offsets index the discovery order of
the params file, and the entry is written symmetrically.  An out-of-range
offset dereferences an out-of-range iterator in the source; reading it is
modelled by the 0 default of getD. -/
def applyCovLine (icov : Bool) (populated : List ℕ) (o1 o2 : ℕ) (v : ℚ)
    (f : ℕ → ℕ → ℚ) : ℕ → ℕ → ℚ :=
  symSet f (populated.getD o1 0) (populated.getD o2 0) (if icov then -v else v)

/-- The covariance reading loop of loadCosmolib (boss.cc lines 343-371).
The malformed-line message at line 360 of the source interpolates
paramsName even though the line belongs to the covariance file. -/
def readCovAux (paramsName : String) (icov : Bool) (populated : List ℕ) :
    List CovLine → ℕ → (ℕ → ℕ → ℚ) → Except String (ℕ → ℕ → ℚ)
  | [], _, f => .ok f
  | CovLine.bad :: _, n, _ =>
      .error ("loadCosmolib: error reading line " ++ toString (n + 1) ++ " of " ++ paramsName)
  | CovLine.ok o1 o2 v :: rest, n, f =>
      readCovAux paramsName icov populated rest (n + 1) (applyCovLine icov populated o1 o2 v f)

/-- The sentinel replacing a zero diagonal entry: 1e-30 for an inverse
covariance, 1e40 for a covariance. -/
def sentinel (icov : Bool) : ℚ := if icov then 1 / 10 ^ 30 else 10 ^ 40

/-- The zero-diagonal loop of loadCosmolib (boss.cc lines 380-394): every
populated bin whose diagonal entry equals zero has it replaced by the
sentinel; the loop is total, it never raises an error. -/
def fixDiagAux (icov : Bool) : List ℕ → (ℕ → ℕ → ℚ) → (ℕ → ℕ → ℚ)
  | [], f => f
  | i :: rest, f =>
      fixDiagAux icov rest (if f i i = 0 then symSet f i i (sentinel icov) else f)

/-- loadCosmolib of baofit/boss.cc (lines 296-407), restricted to its data
and error-reporting semantics: a file that cannot be opened is `none`, and
a file's lines are represented by their parse outcomes since the parser is
the external boost::spirit collaborator. -/
def loadCosmolib (dataName : String) (icov weighted : Bool)
    (paramsFile : Option (List ParamLine)) (covFile : Option (List CovLine)) :
    Except String CosmolibData :=
  let paramsName := dataName ++ ".params"
  let covName := dataName ++ (if icov then ".icov" else ".cov")
  match paramsFile with
  | none => .error ("loadCosmolib: Unable to open " ++ paramsName)
  | some plines =>
    match readParamsAux weighted paramsName plines 0
        { populated := [], dataVec := fun _ => 0, covEntry := fun _ _ => 0 } with
    | .error e => .error e
    | .ok st =>
      match covFile with
      | none => .error ("Unable to open " ++ covName)
      | some clines =>
        match readCovAux paramsName icov st.populated clines 0 st.covEntry with
        | .error e => .error e
        | .ok f => .ok { st with covEntry := fixDiagAux icov st.populated f }

/-- C7 (code evaluation): the loader rejects either unopenable file, and a
malformed parameter line is reported with its line number and the name of
the params file; but a malformed line in the covariance file x.cov is
reported as "line 1 of x.params" (boss.cc line 360 interpolates paramsName
inside the covariance loop), so the message does not name the file that
contains the line. -/
theorem loadCosmolib_cov_error_names_params_file :
    loadCosmolib "x" false false none none =
      .error "loadCosmolib: Unable to open x.params" ∧
    loadCosmolib "x" false false (some [ParamLine.ok 1 0 0]) none =
      .error "Unable to open x.cov" ∧
    loadCosmolib "x" false false (some [ParamLine.bad]) none =
      .error "loadCosmolib: error reading line 1 of x.params" ∧
    loadCosmolib "x" false false (some [ParamLine.ok 1 0 0]) (some [CovLine.bad]) =
      .error "loadCosmolib: error reading line 1 of x.params" :=
  ⟨rfl, rfl, rfl, rfl⟩

theorem symSet_diag_apply (f : ℕ → ℕ → ℚ) (j : ℕ) (v : ℚ) (i : ℕ) :
    symSet f j j v i i = if i = j then v else f i i := by
  by_cases h : i = j
  · subst h
    simp [symSet]
  · simp [symSet, h]

theorem sentinel_ne_zero (icov : Bool) : sentinel icov ≠ 0 := by
  cases icov <;> norm_num [sentinel]

theorem fixDiagAux_nonzero (icov : Bool) (l : List ℕ) :
    ∀ (f : ℕ → ℕ → ℚ) (i : ℕ), f i i ≠ 0 → fixDiagAux icov l f i i = f i i := by
  induction l with
  | nil => intro f i _; rfl
  | cons j rest ih =>
    intro f i h
    simp only [fixDiagAux]
    by_cases hz : f j j = 0
    · rw [if_pos hz]
      have hij : i ≠ j := by
        intro he
        rw [he] at h
        exact h hz
      have hval : symSet f j j (sentinel icov) i i = f i i := by
        rw [symSet_diag_apply, if_neg hij]
      rw [ih _ i (by rw [hval]; exact h), hval]
    · rw [if_neg hz]
      exact ih f i h

/-- C8: after the loader's zero-diagonal pass, the diagonal entry of every
populated bin is the sentinel if it was zero (1e-30 for an inverse
covariance, 1e40 for a covariance) and unchanged otherwise; the pass is a
total function, so a zero diagonal never raises an error. -/
theorem fixDiag_replaces_zero_diagonal (icov : Bool) (populated : List ℕ)
    (f : ℕ → ℕ → ℚ) (i : ℕ) (hi : i ∈ populated) :
    fixDiagAux icov populated f i i =
      (if f i i = 0 then sentinel icov else f i i) ∧
    sentinel true = 1 / 10 ^ 30 ∧ sentinel false = 10 ^ 40 := by
  refine ⟨?_, rfl, rfl⟩
  induction populated generalizing f with
  | nil => exact absurd hi (List.not_mem_nil i)
  | cons j rest ih =>
    simp only [fixDiagAux]
    rcases List.mem_cons.mp hi with hji | hmem
    · subst hji
      by_cases hz : f i i = 0
      · rw [if_pos hz, if_pos hz]
        have hval : symSet f i i (sentinel icov) i i = sentinel icov := by
          rw [symSet_diag_apply, if_pos rfl]
        rw [fixDiagAux_nonzero icov rest _ i (by rw [hval]; exact sentinel_ne_zero icov), hval]
      · rw [if_neg hz, if_neg hz]
        exact fixDiagAux_nonzero icov rest f i hz
    · by_cases hz : f j j = 0
      · rw [if_pos hz]
        rw [ih _ hmem]
        by_cases hij : i = j
        · subst hij
          rw [symSet_diag_apply, if_pos rfl, if_neg (sentinel_ne_zero icov), if_pos hz]
        · rw [symSet_diag_apply, if_neg hij]
      · rw [if_neg hz]
        exact ih f hmem

/-- Witness for C8: a two-bin dataset whose diagonal starts at zero; the
inverse-covariance sentinel is installed at bin 3. -/
theorem fixDiag_replaces_zero_diagonal_witness :
    ((3 : ℕ) ∈ [3, 5]) ∧
      ((fixDiagAux true [3, 5] (fun _ _ => 0) 3 3 =
        (if (fun (_ _ : ℕ) => (0 : ℚ)) 3 3 = 0 then sentinel true
          else (fun (_ _ : ℕ) => (0 : ℚ)) 3 3)) ∧
      sentinel true = 1 / 10 ^ 30 ∧ sentinel false = 10 ^ 40) :=
  ⟨by decide, fixDiag_replaces_zero_diagonal true [3, 5] (fun _ _ => 0) 3 (by decide)⟩

/-- C9: the value the dataset stores for an entry line (offset1, offset2,
value) equals value when reading a .cov file (icov=false, the loader opens
dataName ++ ".cov") and -value when reading a .icov file (icov=true, the
loader opens dataName ++ ".icov"), written symmetrically at the global
indices declared at those offsets. -/
theorem applyCovLine_stored_value (populated : List ℕ) (o1 o2 : ℕ) (v : ℚ)
    (f : ℕ → ℕ → ℚ) :
    applyCovLine false populated o1 o2 v f (populated.getD o1 0) (populated.getD o2 0) = v ∧
    applyCovLine true populated o1 o2 v f (populated.getD o1 0) (populated.getD o2 0) = -v ∧
    applyCovLine false populated o1 o2 v f (populated.getD o2 0) (populated.getD o1 0) = v ∧
    applyCovLine true populated o1 o2 v f (populated.getD o2 0) (populated.getD o1 0) = -v := by
  refine ⟨?_, ?_, ?_, ?_⟩ <;>
    simp [applyCovLine, symSet]

/-- QuasarCorrelationData::_pkmarg of baofit/QuasarCorrelationData.cc: the
contribution to the 1D correlation from a power-spectrum bin between kmin
and kmax, with each factor 1 when its log-lambda argument is zero. -/
noncomputable def pkmarg (kmin kmax l1 l2 : ℝ) : ℝ :=
  (if l1 = 0 then 1 else (Real.sin (kmax * l1) - Real.sin (kmin * l1)) / l1) *
  (if l2 = 0 then 1 else (Real.sin (kmax * l2) - Real.sin (kmin * l2)) / l2)

/-- Modelled from the spec: the Multi-Axis Index decode of spec section 3,
index = (i1*n2 + i2)*n3 + i3 with n2 separation bins and n3 redshift bins,
so the separation-axis component of a global index is (index / n3) % n2. -/
def sepIndexOf (n2 n3 index : ℕ) : ℕ := (index / n3) % n2

/-- The redshift-axis component of a global index (spec section 3). -/
def zIndexOf (n3 index : ℕ) : ℕ := index % n3

/-- The wavelength-ratio-axis component of a global index (spec section 3). -/
def llIndexOf (n2 n3 index : ℕ) : ℕ := index / (n2 * n3)

/-- Symmetric element write of the covariance store over real entries,
as symSet (spec sections 4.3 and 8). -/
def symSetR (f : ℕ → ℕ → ℝ) (i j : ℕ) (v : ℝ) : ℕ → ℕ → ℝ :=
  fun a b => if (a = i ∧ b = j) ∨ (a = j ∧ b = i) then v else f a b

/-- The inner loop of QuasarCorrelationData::fixCovariance
(baofit/QuasarCorrelationData.cc lines 59-97) over the offsets iter2 <=
iter1: a bin whose separation or redshift index differs from i1's is
skipped; otherwise the covariance entry (i1,i2) is incremented by
c*(1 + pkmarg(0,k1,dll[i1],dll[i2]) + pkmarg(k1,k2,dll[i1],dll[i2])).  The
source indexes the dll vector (filled per offset) with the global indices
i1, i2 -- an out-of-range std::vector read for most indices; the read is
modelled by getD's 0 default. -/
noncomputable def fixCovInner (k1 k2 c : ℝ) (n2 n3 : ℕ) (dll : List ℝ) (i1 : ℕ) :
    List ℕ → (ℕ → ℕ → ℝ) → (ℕ → ℕ → ℝ)
  | [], f => f
  | i2 :: rest, f =>
      fixCovInner k1 k2 c n2 n3 dll i1 rest
        (if sepIndexOf n2 n3 i2 = sepIndexOf n2 n3 i1 ∧ zIndexOf n3 i2 = zIndexOf n3 i1 then
          symSetR f i1 i2 (f i1 i2 +
            c * (1 + pkmarg 0 k1 (dll.getD i1 0) (dll.getD i2 0) +
              pkmarg k1 k2 (dll.getD i1 0) (dll.getD i2 0)))
        else f)

/-- The outer loop of QuasarCorrelationData::fixCovariance: walks the
populated global indices in offset order, pushes the log-lambda bin center
of the current bin onto dll, and runs the inner loop over the offsets
processed so far (the current one included). -/
noncomputable def fixCovOuter (k1 k2 c : ℝ) (n2 n3 : ℕ) (llCenter : ℕ → ℝ) :
    List ℕ → List ℕ → List ℝ → (ℕ → ℕ → ℝ) → (ℕ → ℕ → ℝ)
  | [], _, _, f => f
  | i1 :: rest, done, dll, f =>
      fixCovOuter k1 k2 c n2 n3 llCenter rest (done ++ [i1])
        (dll ++ [llCenter (llIndexOf n2 n3 i1)])
        (fixCovInner k1 k2 c n2 n3 (dll ++ [llCenter (llIndexOf n2 n3 i1)]) i1
          (done ++ [i1]) f)

/-- QuasarCorrelationData::fixCovariance(k1, k2, c): throws when the
covariance is not modifiable, otherwise runs the double loop above.  The
binning along the log-lambda axis is the external likely::AbsBinning
collaborator llCenter. -/
noncomputable def QuasarCorrelationData.fixCovariance (modifiable : Bool)
    (k1 k2 c : ℝ) (n2 n3 : ℕ) (llCenter : ℕ → ℝ) (populated : List ℕ)
    (f : ℕ → ℕ → ℝ) : Except String (ℕ → ℕ → ℝ) :=
  if modifiable then
    .ok (fixCovOuter k1 k2 c n2 n3 llCenter populated [] [] f)
  else .error "QuasarCorrelationData::fixCovariance: not modifiable."

theorem symSetR_untouched (f : ℕ → ℕ → ℝ) (i j : ℕ) (v : ℝ) (a b : ℕ)
    (h : ¬((a = i ∧ b = j) ∨ (a = j ∧ b = i))) : symSetR f i j v a b = f a b :=
  if_neg h

theorem fixCovInner_frame (k1 k2 c : ℝ) (n2 n3 : ℕ) (dll : List ℝ) (i1 : ℕ)
    (a b : ℕ)
    (hdiff : sepIndexOf n2 n3 a ≠ sepIndexOf n2 n3 b ∨ zIndexOf n3 a ≠ zIndexOf n3 b) :
    ∀ (l : List ℕ) (f : ℕ → ℕ → ℝ), fixCovInner k1 k2 c n2 n3 dll i1 l f a b = f a b := by
  intro l
  induction l with
  | nil => intro f; rfl
  | cons i2 rest ih =>
    intro f
    simp only [fixCovInner]
    rw [ih]
    by_cases hg : sepIndexOf n2 n3 i2 = sepIndexOf n2 n3 i1 ∧ zIndexOf n3 i2 = zIndexOf n3 i1
    · rw [if_pos hg]
      apply symSetR_untouched
      rintro (⟨ha, hb⟩ | ⟨ha, hb⟩)
      · subst ha
        subst hb
        rcases hdiff with h | h
        · exact h hg.1.symm
        · exact h hg.2.symm
      · subst ha
        subst hb
        rcases hdiff with h | h
        · exact h hg.1
        · exact h hg.2
    · rw [if_neg hg]

theorem fixCovOuter_frame (k1 k2 c : ℝ) (n2 n3 : ℕ) (llCenter : ℕ → ℝ) (a b : ℕ)
    (hdiff : sepIndexOf n2 n3 a ≠ sepIndexOf n2 n3 b ∨ zIndexOf n3 a ≠ zIndexOf n3 b) :
    ∀ (todo done : List ℕ) (dll : List ℝ) (f : ℕ → ℕ → ℝ),
      fixCovOuter k1 k2 c n2 n3 llCenter todo done dll f a b = f a b := by
  intro todo
  induction todo with
  | nil => intro _ _ f; rfl
  | cons i1 rest ih =>
    intro done dll f
    simp only [fixCovOuter]
    rw [ih, fixCovInner_frame k1 k2 c n2 n3 _ i1 a b hdiff]

/-- C10: for every modifiable dataset and every parameter triple (k1,k2,c),
fixCovariance leaves the covariance entry of every pair of populated bins
whose separation-axis indices differ or whose redshift-axis indices differ
unchanged (so only entries of pairs sharing both the separation and the
redshift bin index can be modified, in particular increased). -/
theorem fixCovariance_frame (k1 k2 c : ℝ) (n2 n3 : ℕ) (llCenter : ℕ → ℝ)
    (populated : List ℕ) (f : ℕ → ℕ → ℝ) (a b : ℕ)
    (hdiff : sepIndexOf n2 n3 a ≠ sepIndexOf n2 n3 b ∨ zIndexOf n3 a ≠ zIndexOf n3 b) :
    ∃ g, QuasarCorrelationData.fixCovariance true k1 k2 c n2 n3 llCenter populated f =
        .ok g ∧ g a b = f a b ∧ g b a = f b a := by
  refine ⟨fixCovOuter k1 k2 c n2 n3 llCenter populated [] [] f, rfl, ?_, ?_⟩
  · exact fixCovOuter_frame k1 k2 c n2 n3 llCenter a b hdiff populated [] [] f
  · exact fixCovOuter_frame k1 k2 c n2 n3 llCenter b a
      (hdiff.imp Ne.symm Ne.symm) populated [] [] f

/-- Witness for C10: a two-bin layout with 2 separation bins and 1 redshift
bin, global indices 0 and 1 falling in different separation bins, at the
source's default parameters (k1=150, k2=300, c=1e-3). -/
theorem fixCovariance_frame_witness :
    (sepIndexOf 2 1 0 ≠ sepIndexOf 2 1 1 ∨ zIndexOf 1 0 ≠ zIndexOf 1 1) ∧
      ∃ g, QuasarCorrelationData.fixCovariance true 150 300 (1 / 1000) 2 1
          (fun _ => 0) [0, 1] (fun _ _ => 0) = .ok g ∧
        g 0 1 = (fun (_ _ : ℕ) => (0 : ℝ)) 0 1 ∧
        g 1 0 = (fun (_ _ : ℕ) => (0 : ℝ)) 1 0 :=
  ⟨by decide, fixCovariance_frame 150 300 (1 / 1000) 2 1 (fun _ => 0) [0, 1]
    (fun _ _ => 0) 0 1 (by decide)⟩
